import Mathlib

/-
Shallow embedding of the message-bus and batch-system admission-control core
of the repository (src/src/toil/bus.py and
src/src/toil/batchSystems/abstractBatchSystem.py), together with theorems
settling the behavioural claims about it.

Python dictionaries keyed by message case types are modelled as association
lists with Python dict assignment semantics (update the existing key in
place, otherwise append a new binding).  Python exceptions are modelled by
Option / Except results.  Python float fields are modelled by Rat, int
fields by Int.
-/

set_option maxHeartbeats 1000000

namespace ToilSpec

/-- The closed family of message case types routed by the bus.  Each
constructor corresponds to one of the NamedTuple message classes declared in
src/src/toil/bus.py (lines 29-99); the runtime type of a message is its sole
routing key. -/
inductive MsgType
  | jobIssued
  | jobUpdated
  | jobCompleted
  | jobFailed
  | jobMissing
  | queueSize
  | clusterSize
  | clusterDesiredSize
deriving DecidableEq, Repr

/-- Messages carried on the bus: one constructor per NamedTuple message class
of src/src/toil/bus.py, with the same fields. -/
inductive Message
  | jobIssued (job_type : String) (job_id : String)
  | jobUpdated (job_id : String) (result_status : Int)
  | jobCompleted (job_type : String) (job_id : String)
  | jobFailed (job_type : String) (job_id : String)
  | jobMissing (job_id : String)
  | queueSize (queue_size : Int)
  | clusterSize (instance_type : String) (current_size : Int)
  | clusterDesiredSize (instance_type : String) (desired_size : Int)
deriving DecidableEq, Repr

/-- The runtime case type of a message: the value of `type(message)` used by
MessageBus.publish for topic routing and by the MessageInbox handler for
queue selection. -/
def Message.tag : Message → MsgType
  | Message.jobIssued _ _ => MsgType.jobIssued
  | Message.jobUpdated _ _ => MsgType.jobUpdated
  | Message.jobCompleted _ _ => MsgType.jobCompleted
  | Message.jobFailed _ _ => MsgType.jobFailed
  | Message.jobMissing _ => MsgType.jobMissing
  | Message.queueSize _ => MsgType.queueSize
  | Message.clusterSize _ _ => MsgType.clusterSize
  | Message.clusterDesiredSize _ _ => MsgType.clusterDesiredSize

/-- A Python dict from message case types to buffered message lists,
modelled as an association list. -/
abbrev Dict := List (MsgType × List Message)

/-- Lookup in a Python dict: `d[t]`, `none` plays the role of KeyError. -/
def dictGet : Dict → MsgType → Option (List Message)
  | [], _ => none
  | (k, v) :: rest, t => if k = t then some v else dictGet rest t

/-- Python dict assignment `d[t] = v`: replace the binding for an existing
key, otherwise append a new binding (dict insertion order). -/
def dictSet : Dict → MsgType → List Message → Dict
  | [], t, v => [(t, v)]
  | (k, w) :: rest, t, v =>
    if k = t then (t, v) :: rest else (k, w) :: dictSet rest t v

/-- State of a MessageInbox (src/src/toil/bus.py lines 198-295): the
`_messages_by_type` buffer.  A case type is subscribed exactly when it has a
key in the buffer, as arranged by `_set_bus_and_message_types`, which
creates the queue and the bus listener for exactly the wanted types. -/
structure Inbox where
  queues : Dict
deriving DecidableEq, Repr

/-- Embeds `MessageInbox._set_bus_and_message_types` reached through
`MessageBus.connect` (src/src/toil/bus.py lines 165-175 and 221-234): for
each wanted type, make an empty queue for it and subscribe the shared
handler to that topic. -/
def connect (wanted : List MsgType) : Inbox :=
  Inbox.mk (wanted.foldl (fun d t => dictSet d t []) [])

/-- Effect on one connected inbox of `MessageBus.publish` (src/src/toil/bus.py
lines 130-136): the bus sends the message on the topic of its runtime type;
the inbox holds a listener for that topic exactly when the type has a queue,
and the listener (`on_message`, lines 217-218) appends the message to the
queue for `type(message)`.  Queues of every other type are untouched. -/
def deliver (i : Inbox) (m : Message) : Inbox :=
  match dictGet i.queues m.tag with
  | some q => Inbox.mk (dictSet i.queues m.tag (q ++ [m]))
  | none => i

/-- A sequence of publishes on the bus, observed by one connected inbox, in
publish order. -/
def publishAll (i : Inbox) (ms : List Message) : Inbox :=
  ms.foldl deliver i

/-- Embeds `MessageInbox.count` (src/src/toil/bus.py lines 236-241):
`len(self._messages_by_type[message_type])`; `none` models the KeyError
raised when the inbox never subscribed to the type. -/
def count (i : Inbox) (t : MsgType) : Option Nat :=
  (dictGet i.queues t).map List.length

/-- Embeds `MessageInbox.empty` (src/src/toil/bus.py lines 243-248):
`all(len(v) == 0 for v in self._messages_by_type.values())`. -/
def empty (i : Inbox) : Bool :=
  i.queues.all (fun p => p.2.length == 0)

/-- Python `list.pop()`: remove and return the last element. -/
def pyPop : List Message → Option (Message × List Message)
  | [] => none
  | [x] => some (x, [])
  | x :: y :: rest =>
    match pyPop (y :: rest) with
    | some (z, front) => some (z, x :: front)
    | none => none

/-- Python `list.append(x)`. -/
def pyAppend (l : List Message) (x : Message) : List Message :=
  l ++ [x]

/-- Result of draining one for_each generator run.  `confirmed` lists the
messages the consumer handled without raising, in the order they were
yielded; `leftover` is what remains of the working buffer when the generator
finishes or is closed by a consumer exception; `assertFailed` records
whether the `isinstance` assertion at src/src/toil/bus.py line 280 fired. -/
structure DrainResult where
  confirmed : List Message
  leftover : List Message
  assertFailed : Bool
deriving DecidableEq, Repr

/-- The while loop of `MessageInbox.for_each` (src/src/toil/bus.py lines
271-290) over the swapped-out buffer, which the code has reversed to
newest-first order so that `pop()` takes the oldest message.  `budget` is
the number of messages the consumer handles successfully before it raises;
the loop pops a message, checks the isinstance assertion, yields it, and on
a consumer exception appends the unconfirmed message back (per-item
`finally`, lines 284-290) and stops.  The recursion is on `budget`, which
strictly decreases at the one recursive call. -/
def drainLoop (t : MsgType) : Nat → List Message → DrainResult
  | budget, l =>
    match pyPop l with
    | none => DrainResult.mk [] [] false
    | some (m, rest) =>
      if m.tag = t then
        match budget with
        | 0 => DrainResult.mk [] (pyAppend rest m) false
        | b + 1 =>
          let r := drainLoop t b rest
          DrainResult.mk (m :: r.confirmed) r.leftover r.assertFailed
      else DrainResult.mk [] (pyAppend rest m) true

/-- Embeds `MessageInbox.for_each` (src/src/toil/bus.py lines 253-295).

The buffer for the requested type is looked up (KeyError, modelled as
`none`, when the type was never subscribed), swapped out for a fresh empty
list, reversed, and drained by `drainLoop`.  The outer `finally` (lines
291-295) re-reverses whatever is left and splices it in front of the
current buffer, which holds only the messages that arrived during the
iteration.

`delta` is the list of messages published on the bus while the iteration
runs.  In the source each such publish appends to a per-type buffer that the
drain loop never reads (the buffer for `t` was swapped out first) and the
final splice reads the buffer for `t` only after the loop, so the final
state does not depend on where within the iteration each delivery happens;
the model therefore applies them all to the swapped state up front.

The returned `DrainResult` carries `leftover` already re-reversed into
publish order, as the outer `finally` leaves it. -/
def for_each (i : Inbox) (t : MsgType) (budget : Nat) (delta : List Message) :
    Option (DrainResult × Inbox) :=
  match dictGet i.queues t with
  | none => none
  | some message_list =>
    let mid := publishAll (Inbox.mk (dictSet i.queues t [])) delta
    let r := drainLoop t budget message_list.reverse
    let newer := (dictGet mid.queues t).getD []
    some (DrainResult.mk r.confirmed r.leftover.reverse r.assertFailed,
      Inbox.mk (dictSet mid.queues t (r.leftover.reverse ++ newer)))

/-- The well-typedness invariant of an inbox: every buffered message sits in
the queue keyed by its own runtime type. -/
def inboxWF (i : Inbox) : Prop :=
  ∀ p ∈ i.queues, ∀ m ∈ p.2, m.tag = p.1

/-- Inbox states reachable through the public bus protocol: a fresh
connection, a publish delivered by the bus, or a completed or aborted
for_each drain.  count and empty do not change state. -/
inductive Reach : Inbox → Prop
  | connected (ws : List MsgType) : Reach (connect ws)
  | published (i : Inbox) (m : Message) : Reach i → Reach (deliver i m)
  | drained (i : Inbox) (t : MsgType) (b : Nat) (delta : List Message)
      (r : DrainResult) (i2 : Inbox) :
      Reach i → for_each i t b delta = some (r, i2) → Reach i2

/-- A bus, represented by the inboxes connected to it; publishing delivers
the message to every connected inbox. -/
abbrev Bus := List Inbox

/-- Effect of `MessageBus.publish` on every connection of the bus. -/
def bus_publish (b : Bus) (m : Message) : Bus :=
  b.map (fun i => deliver i m)

/-- State of a MessageOutbox (src/src/toil/bus.py lines 297-325): the
optional bus reference set by `_set_bus`. -/
structure MessageOutbox where
  bus : Option Bus

/-- Embeds `MessageOutbox.publish` (src/src/toil/bus.py lines 317-325):
raises RuntimeError (modelled as `Except.error` with the message text) when
`self._bus is None`, otherwise publishes on the bus; an error publishes
nothing. -/
def MessageOutbox.publish (o : MessageOutbox) (m : Message) : Except String Bus :=
  match o.bus with
  | none => Except.error "Cannot send message when not connected to a bus"
  | some b => Except.ok (bus_publish b m)

/-- A parsed resource requirement amount as carried in the diagnostic:
cores are Python floats (modelled as Rat), memory and disk are ints, and an
accelerator amount is the list of accelerator requirement descriptors. -/
inductive ParsedRequirement
  | float (q : Rat)
  | int (n : Int)
  | accels (l : List String)
deriving DecidableEq, Repr

/-- A resource descriptor (a Requirer): the demand of one unit of work read
by `BatchSystemSupport.check_resource_request`.  `jobName` is `some` exactly
when the Python object has a string `jobName` attribute. -/
structure Requirer where
  jobName : Option String
  cores : Rat
  memory : Int
  disk : Int
  accelerators : List String
deriving DecidableEq, Repr

/-- The admission-failure diagnostic
(`InsufficientSystemResources.__init__`,
src/src/toil/batchSystems/abstractBatchSystem.py lines 510-534). -/
structure InsufficientSystemResources where
  job_name : Option String
  resource : String
  requested : Option ParsedRequirement
  available : Option ParsedRequirement
  batch_system : Option String
  source : Option String
  details : List String
deriving DecidableEq, Repr

/-- Embeds `InsufficientSystemResources.__init__` as called with its default
arguments: `job_name` is the requirer jobName when it is a string,
`batch_system`, `source` default to None and `details` to []. -/
def mkInsufficient (r : Requirer) (resource : String)
    (requested available : Option ParsedRequirement) : InsufficientSystemResources :=
  InsufficientSystemResources.mk r.jobName resource requested available none none []

/-- A Python exception escaping the admission-control code: either the
structured diagnostic, or a NameError on an undefined identifier. -/
inductive PyError
  | insufficient (e : InsufficientSystemResources)
  | nameError (name : String)
deriving DecidableEq, Repr

/-- State of a BatchSystemSupport instance
(src/src/toil/batchSystems/abstractBatchSystem.py lines 279-313): the
resource ceilings fixed at construction, the environment map mutated only
by setEnv, the class name used to annotate diagnostics, and the configured
working directory (`self.config.workDir`, an optional path). -/
structure BatchSystemSupport where
  maxCores : Rat
  maxMemory : Int
  maxDisk : Int
  environment : List (String × String)
  className : String
  workDir : Option String
deriving DecidableEq, Repr

/-- The for loop of `check_resource_request`
(src/src/toil/batchSystems/abstractBatchSystem.py lines 329-334): for each
of cores, memory, disk in that order, raise the diagnostic as soon as the
requested amount strictly exceeds the ceiling. -/
def check_limits (bs : BatchSystemSupport) (r : Requirer) :
    Except InsufficientSystemResources Unit :=
  if r.cores > bs.maxCores then
    Except.error (mkInsufficient r "cores"
      (some (ParsedRequirement.float r.cores)) (some (ParsedRequirement.float bs.maxCores)))
  else if r.memory > bs.maxMemory then
    Except.error (mkInsufficient r "memory"
      (some (ParsedRequirement.int r.memory)) (some (ParsedRequirement.int bs.maxMemory)))
  else if r.disk > bs.maxDisk then
    Except.error (mkInsufficient r "disk"
      (some (ParsedRequirement.int r.disk)) (some (ParsedRequirement.int bs.maxDisk)))
  else Except.ok ()

/-- Embeds the default `_check_accelerator_request` hook
(src/src/toil/batchSystems/abstractBatchSystem.py lines 343-353).  Its body
reads `if len(requierer.accelerators) > 0:` where `requierer` is an
undefined name (the parameter is spelled `requirer`), so every invocation
raises NameError on that identifier before the accelerator list is ever
inspected, for empty and non-empty lists alike. -/
def check_accelerator_request (_r : Requirer) : Except PyError Unit :=
  Except.error (PyError.nameError "requierer")

/-- The except-clause of `check_resource_request`
(src/src/toil/batchSystems/abstractBatchSystem.py lines 337-341): enrich a
caught InsufficientSystemResources with `self.__class__.__name__ or None`
(a class name is a non-empty string, the `or None` only matters for the
empty string) and, for a disk rejection, `self.config.workDir` as the
source. -/
def annotate_error (bs : BatchSystemSupport) (e : InsufficientSystemResources) :
    InsufficientSystemResources :=
  { e with
    batch_system := if bs.className = "" then none else some bs.className
    source := if e.resource = "disk" then bs.workDir else none }

/-- Embeds `BatchSystemSupport.check_resource_request`
(src/src/toil/batchSystems/abstractBatchSystem.py lines 315-341): run the
cores/memory/disk loop, then the accelerator hook; an
InsufficientSystemResources raised by either is annotated and re-raised,
any other exception (the NameError from the broken default hook)
propagates unannotated. -/
def check_resource_request (bs : BatchSystemSupport) (r : Requirer) :
    Except PyError Unit :=
  match check_limits bs r with
  | Except.error e => Except.error (PyError.insufficient (annotate_error bs e))
  | Except.ok () =>
    match check_accelerator_request r with
    | Except.error (PyError.insufficient e) =>
      Except.error (PyError.insufficient (annotate_error bs e))
    | other => other

/-- Lookup of a name in an environment modelled as an association list
(Python `os.environ[name]` / dict lookup). -/
def lookupEnv : List (String × String) → String → Option String
  | [], _ => none
  | (k, v) :: rest, name => if k = name then some v else lookupEnv rest name

/-- Python dict assignment on a string-keyed environment map. -/
def envSet : List (String × String) → String → String → List (String × String)
  | [], name, value => [(name, value)]
  | (k, w) :: rest, name, value =>
    if k = name then (name, value) :: rest else (k, w) :: envSet rest name value

/-- Embeds `BatchSystemSupport.setEnv`
(src/src/toil/batchSystems/abstractBatchSystem.py lines 355-379).
`environ` is the ambient `os.environ` of the caller at call time.  With no
explicit value, the value is copied from `environ`; a missing name raises
RuntimeError with the message built by the source f-string.  The resulting
value is stored in the instance environment map under the name. -/
def setEnv (environ : List (String × String)) (bs : BatchSystemSupport)
    (name : String) (value : Option String) : Except String BatchSystemSupport :=
  match value with
  | none =>
    match lookupEnv environ name with
    | none => Except.error (name ++ " does not exist in current environment")
    | some v => Except.ok { bs with environment := envSet bs.environment name v }
  | some v => Except.ok { bs with environment := envSet bs.environment name v }

/-- Embeds `InsufficientSystemResources.__str__`
(src/src/toil/batchSystems/abstractBatchSystem.py lines 536-569).  The
first two local bindings (`unit`, `purpose`) evaluate fine, but the third,
on line 543, evaluates the condition `self.resource == disk` in which
`disk` is an undefined global name, so every call raises NameError there
before any message text is assembled.  (Line 543 also lacks the f prefix on
its string literal, and later lines reference the undefined locals
`job_name`, `available`, `resource` and `details`, so the method would
still fail even if `disk` were defined.) -/
def insufficient_str (_e : InsufficientSystemResources) : Except PyError String :=
  Except.error (PyError.nameError "disk")

/-- A concrete backend configuration used by the concrete evaluation
theorems: ceilings of 2 cores, 4 bytes of memory, 8 bytes of disk. -/
def demoBS : BatchSystemSupport :=
  BatchSystemSupport.mk 2 4 8 [] "FakeBatchSystem" (some "/tmp/toil")

/-- A concrete descriptor requesting exactly the demoBS ceilings, with no
accelerators. -/
def atCeilingReq : Requirer :=
  Requirer.mk none 2 4 8 []

theorem dictGet_dictSet_self (d : Dict) (t : MsgType) (v : List Message) :
    dictGet (dictSet d t v) t = some v := by
  induction d with
  | nil => simp [dictSet, dictGet]
  | cons p d ih =>
    obtain ⟨k, w⟩ := p
    by_cases h : k = t
    · simp [dictSet, dictGet, h]
    · simp [dictSet, dictGet, h, ih]

theorem dictGet_dictSet_ne (d : Dict) (t u : MsgType) (v : List Message)
    (hu : u ≠ t) : dictGet (dictSet d t v) u = dictGet d u := by
  induction d with
  | nil => simp [dictSet, dictGet, Ne.symm hu]
  | cons p d ih =>
    obtain ⟨k, w⟩ := p
    by_cases h : k = t
    · subst h
      simp [dictSet, dictGet, Ne.symm hu]
    · simp [dictSet, dictGet, h, ih]

theorem dictSet_id (d : Dict) (t : MsgType) (v : List Message)
    (h : dictGet d t = some v) : dictSet d t v = d := by
  induction d with
  | nil => simp [dictGet] at h
  | cons p d ih =>
    obtain ⟨k, w⟩ := p
    by_cases hk : k = t
    · subst hk
      simp only [dictGet, if_true, eq_self_iff_true, Option.some.injEq] at h
      simp [dictSet, h]
    · simp only [dictGet, if_neg hk] at h
      simp [dictSet, hk, ih h]

theorem dictSet_dictSet (d : Dict) (t : MsgType) (v w : List Message) :
    dictSet (dictSet d t v) t w = dictSet d t w := by
  induction d with
  | nil => simp [dictSet]
  | cons p d ih =>
    obtain ⟨k, u⟩ := p
    by_cases hk : k = t
    · simp [dictSet, hk]
    · simp [dictSet, hk, ih]

theorem mem_dictSet (d : Dict) (t : MsgType) (v : List Message)
    (p : MsgType × List Message) (hp : p ∈ dictSet d t v) :
    p = (t, v) ∨ p ∈ d := by
  induction d with
  | nil => simpa [dictSet] using hp
  | cons q d ih =>
    obtain ⟨k, w⟩ := q
    by_cases hk : k = t
    · simp only [dictSet, if_pos hk, List.mem_cons] at hp
      rcases hp with h | h
      · exact Or.inl h
      · exact Or.inr (List.mem_cons_of_mem _ h)
    · simp only [dictSet, if_neg hk, List.mem_cons] at hp
      rcases hp with h | h
      · exact Or.inr (by simp [h])
      · rcases ih h with h2 | h2
        · exact Or.inl h2
        · exact Or.inr (List.mem_cons_of_mem _ h2)

theorem dictGet_mem (d : Dict) (t : MsgType) (q : List Message)
    (h : dictGet d t = some q) : (t, q) ∈ d := by
  induction d with
  | nil => simp [dictGet] at h
  | cons p d ih =>
    obtain ⟨k, w⟩ := p
    by_cases hk : k = t
    · subst hk
      simp only [dictGet, if_true, eq_self_iff_true, Option.some.injEq] at h
      simp [h]
    · simp only [dictGet, if_neg hk] at h
      exact List.mem_cons_of_mem _ (ih h)

theorem deliver_get_self (i : Inbox) (m : Message) (q : List Message)
    (hq : dictGet i.queues m.tag = some q) :
    dictGet (deliver i m).queues m.tag = some (q ++ [m]) := by
  simp [deliver, hq, dictGet_dictSet_self]

theorem deliver_get_ne (i : Inbox) (m : Message) (u : MsgType)
    (hu : u ≠ m.tag) :
    dictGet (deliver i m).queues u = dictGet i.queues u := by
  cases hq : dictGet i.queues m.tag with
  | none => simp [deliver, hq]
  | some q => simp [deliver, hq, dictGet_dictSet_ne i.queues m.tag u (q ++ [m]) hu]

theorem publishAll_get (ms : List Message) (i : Inbox) (t : MsgType)
    (q : List Message) (hq : dictGet i.queues t = some q) :
    dictGet (publishAll i ms).queues t
      = some (q ++ ms.filter (fun m => m.tag == t)) := by
  induction ms generalizing i q with
  | nil => simpa [publishAll] using hq
  | cons m ms ih =>
    by_cases hm : m.tag = t
    · rw [← hm] at hq
      have h2 := deliver_get_self i m q hq
      rw [hm] at h2
      have h3 := ih (deliver i m) (q ++ [m]) h2
      simp only [publishAll, List.foldl_cons] at h3 ⊢
      rw [h3, List.filter_cons_of_pos (by simp [hm]), List.append_assoc]
      simp
    · have h2 : dictGet (deliver i m).queues t = some q := by
        rw [deliver_get_ne i m t (fun h => hm h.symm)]
        exact hq
      have h3 := ih (deliver i m) q h2
      simp only [publishAll, List.foldl_cons] at h3 ⊢
      rw [h3, List.filter_cons_of_neg (by simp [hm])]

theorem pyPop_append (l : List Message) (x : Message) :
    pyPop (l ++ [x]) = some (x, l) := by
  induction l with
  | nil => rfl
  | cons a l ih =>
    cases l with
    | nil => simp [pyPop]
    | cons b l2 =>
      simp only [List.cons_append] at ih ⊢
      simp [pyPop, ih]

theorem drainLoop_reverse (t : MsgType) (q : List Message) (b : Nat)
    (ht : ∀ m ∈ q, m.tag = t) :
    drainLoop t b q.reverse = DrainResult.mk (q.take b) (q.drop b).reverse false := by
  induction q generalizing b with
  | nil => simp [drainLoop, pyPop]
  | cons m rest ih =>
    have hm : m.tag = t := ht m (List.mem_cons_self m rest)
    have hrest : ∀ x ∈ rest, x.tag = t := fun x hx => ht x (List.mem_cons_of_mem m hx)
    rw [List.reverse_cons]
    cases b with
    | zero =>
      simp [drainLoop, pyPop_append, hm, pyAppend]
    | succ b =>
      simp [drainLoop, pyPop_append, hm, ih b hrest]

theorem for_each_eq (i : Inbox) (t : MsgType) (b : Nat) (delta : List Message)
    (q : List Message) (hq : dictGet i.queues t = some q)
    (ht : ∀ m ∈ q, m.tag = t) :
    for_each i t b delta =
      some (DrainResult.mk (q.take b) (q.drop b) false,
        Inbox.mk (dictSet (publishAll (Inbox.mk (dictSet i.queues t [])) delta).queues t
          (q.drop b ++ delta.filter (fun m => m.tag == t)))) := by
  have hmid : dictGet (publishAll (Inbox.mk (dictSet i.queues t [])) delta).queues t
      = some (delta.filter (fun m => m.tag == t)) := by
    simpa using publishAll_get delta (Inbox.mk (dictSet i.queues t [])) t []
      (dictGet_dictSet_self i.queues t [])
  simp only [for_each, hq]
  rw [drainLoop_reverse t q b ht, hmid]
  simp

theorem connect_get (ws : List MsgType) (t : MsgType) (d : Dict) :
    dictGet (ws.foldl (fun d u => dictSet d u []) d) t
      = if t ∈ ws then some [] else dictGet d t := by
  induction ws generalizing d with
  | nil => simp
  | cons w ws ih =>
    simp only [List.foldl_cons]
    rw [ih]
    by_cases hw : t ∈ ws
    · simp [hw]
    · by_cases htw : t = w
      · subst htw
        simp [hw, dictGet_dictSet_self]
      · simp [hw, htw, dictGet_dictSet_ne d w t [] htw]

theorem connect_get_mem (ws : List MsgType) (t : MsgType) (ht : t ∈ ws) :
    dictGet (connect ws).queues t = some [] := by
  have h := connect_get ws t []
  simpa [connect, ht] using h

theorem inboxWF_get (i : Inbox) (hwf : inboxWF i) (t : MsgType)
    (q : List Message) (hq : dictGet i.queues t = some q) :
    ∀ m ∈ q, m.tag = t :=
  fun m hm => hwf (t, q) (dictGet_mem i.queues t q hq) m hm

theorem inboxWF_dictSet (d : Dict) (t : MsgType) (v : List Message)
    (hd : inboxWF (Inbox.mk d)) (hv : ∀ m ∈ v, m.tag = t) :
    inboxWF (Inbox.mk (dictSet d t v)) := by
  intro p hp
  rcases mem_dictSet d t v p hp with h | h
  · subst h
    intro m hm
    exact hv m hm
  · exact hd p h

theorem inboxWF_deliver (i : Inbox) (m : Message) (h : inboxWF i) :
    inboxWF (deliver i m) := by
  cases hq : dictGet i.queues m.tag with
  | none => simpa [deliver, hq] using h
  | some q =>
    have hd : deliver i m = Inbox.mk (dictSet i.queues m.tag (q ++ [m])) := by
      simp [deliver, hq]
    rw [hd]
    refine inboxWF_dictSet i.queues m.tag (q ++ [m]) h ?_
    intro x hx
    rcases List.mem_append.mp hx with h2 | h2
    · exact inboxWF_get i h m.tag q hq x h2
    · rw [List.eq_of_mem_singleton h2]

theorem inboxWF_publishAll (ms : List Message) (i : Inbox) (h : inboxWF i) :
    inboxWF (publishAll i ms) := by
  induction ms generalizing i with
  | nil => simpa [publishAll] using h
  | cons m ms ih =>
    have h2 := ih (deliver i m) (inboxWF_deliver i m h)
    simpa [publishAll] using h2

theorem inboxWF_connect (ws : List MsgType) : inboxWF (connect ws) := by
  intro p hp m hm
  have h0 : ∀ w : List MsgType, ∀ d : Dict,
      (∀ p2 ∈ d, p2.2 = ([] : List Message)) →
      ∀ p2 ∈ w.foldl (fun d u => dictSet d u []) d, p2.2 = [] := by
    intro w
    induction w with
    | nil => intro d hd; simpa using hd
    | cons a w ih =>
      intro d hd
      simp only [List.foldl_cons]
      refine ih (dictSet d a []) ?_
      intro p2 hp2
      rcases mem_dictSet d a [] p2 hp2 with h | h
      · simp [h]
      · exact hd p2 h
  have h1 : p.2 = [] := h0 ws [] (by simp) p hp
  rw [h1] at hm
  simp at hm

theorem for_each_some (i : Inbox) (t : MsgType) (b : Nat)
    (delta : List Message) (r : DrainResult) (i2 : Inbox)
    (h : for_each i t b delta = some (r, i2)) :
    ∃ q, dictGet i.queues t = some q := by
  cases hq : dictGet i.queues t with
  | none => simp [for_each, hq] at h
  | some q => exact ⟨q, rfl⟩

theorem inboxWF_for_each (i : Inbox) (t : MsgType) (b : Nat)
    (delta : List Message) (r : DrainResult) (i2 : Inbox)
    (hwf : inboxWF i) (h : for_each i t b delta = some (r, i2)) :
    inboxWF i2 ∧ r.assertFailed = false := by
  obtain ⟨q, hq⟩ := for_each_some i t b delta r i2 h
  have ht := inboxWF_get i hwf t q hq
  rw [for_each_eq i t b delta q hq ht] at h
  have hpair := Option.some.inj h
  have hr : DrainResult.mk (q.take b) (q.drop b) false = r := congrArg Prod.fst hpair
  have hi : Inbox.mk (dictSet (publishAll (Inbox.mk (dictSet i.queues t [])) delta).queues t
      (q.drop b ++ delta.filter (fun m => m.tag == t))) = i2 := congrArg Prod.snd hpair
  constructor
  · rw [← hi]
    have hmidwf : inboxWF (publishAll (Inbox.mk (dictSet i.queues t [])) delta) := by
      refine inboxWF_publishAll delta _ ?_
      refine inboxWF_dictSet i.queues t [] hwf ?_
      intro m hm
      simp at hm
    refine inboxWF_dictSet _ t _ hmidwf ?_
    intro m hm
    rcases List.mem_append.mp hm with h2 | h2
    · exact ht m (List.mem_of_mem_drop h2)
    · have h3 := List.of_mem_filter h2
      simpa using h3
  · rw [← hr]

/-- C1: for every sequence of messages published on the bus, an inbox
connected (subscribed) to a case type before the publishes observes, via
for_each of that type with a consumer that handles every message, exactly
the published messages of that type, in publish order (FIFO per type). -/
theorem bus_fifo_per_type (wanted : List MsgType) (t : MsgType) (ht : t ∈ wanted)
    (ms : List Message) (b : Nat)
    (hb : (ms.filter (fun m => m.tag == t)).length ≤ b) :
    (for_each (publishAll (connect wanted) ms) t b []).map (fun p => p.1.confirmed)
      = some (ms.filter (fun m => m.tag == t)) := by
  have h0 := connect_get_mem wanted t ht
  have h1 : dictGet (publishAll (connect wanted) ms).queues t
      = some (ms.filter (fun m => m.tag == t)) := by
    simpa using publishAll_get ms (connect wanted) t [] h0
  have h2 : ∀ m ∈ ms.filter (fun m => m.tag == t), m.tag = t := by
    intro m hm
    have h3 := List.of_mem_filter hm
    simpa using h3
  rw [for_each_eq _ _ _ _ _ h1 h2]
  simp [List.take_of_length_le hb]

/-- Witness for C1 at a concrete publish sequence of mixed types. -/
theorem bus_fifo_per_type_witness :
    (for_each (publishAll (connect [MsgType.jobCompleted, MsgType.jobFailed])
        [Message.jobCompleted "sort" "j1", Message.jobFailed "sort" "j2",
          Message.jobCompleted "x" "j3"]) MsgType.jobCompleted 5 []).map
      (fun p => p.1.confirmed)
      = some [Message.jobCompleted "sort" "j1", Message.jobCompleted "x" "j3"] :=
  bus_fifo_per_type [MsgType.jobCompleted, MsgType.jobFailed] MsgType.jobCompleted
    (by decide)
    [Message.jobCompleted "sort" "j1", Message.jobFailed "sort" "j2",
      Message.jobCompleted "x" "j3"] 5 (by decide)

/-- C2: when a for_each batch over pending queue q confirms M messages and
the consumer then fails on the next one, the queue for the type afterwards
holds exactly the remaining q.drop M messages (the failed one first, in the
original publish order) ahead of every message of that type published
during the iteration; the next for_each call yields exactly those
messages, the requeued remainder first; no message is lost. -/
theorem for_each_requeue (i : Inbox) (t : MsgType) (q delta : List Message)
    (M : Nat) (hq : dictGet i.queues t = some q) (ht : ∀ m ∈ q, m.tag = t)
    (hM : M < q.length) :
    ∃ i2, for_each i t M delta
        = some (DrainResult.mk (q.take M) (q.drop M) false, i2)
      ∧ dictGet i2.queues t
        = some (q.drop M ++ delta.filter (fun m => m.tag == t))
      ∧ q.drop M ≠ []
      ∧ (q.drop M).length = q.length - M
      ∧ (for_each i2 t (q.drop M ++ delta.filter (fun m => m.tag == t)).length []).map
          (fun p => p.1.confirmed)
        = some (q.drop M ++ delta.filter (fun m => m.tag == t)) := by
  refine ⟨_, for_each_eq i t M delta q hq ht, dictGet_dictSet_self _ _ _, ?_, ?_, ?_⟩
  · intro hnil
    have h2 : (q.drop M).length = 0 := by rw [hnil]; rfl
    rw [List.length_drop] at h2
    omega
  · exact List.length_drop M q
  · have hget : dictGet (Inbox.mk (dictSet
        (publishAll (Inbox.mk (dictSet i.queues t [])) delta).queues t
        (q.drop M ++ delta.filter (fun m => m.tag == t)))).queues t
      = some (q.drop M ++ delta.filter (fun m => m.tag == t)) :=
      dictGet_dictSet_self _ _ _
    have ht2 : ∀ m ∈ q.drop M ++ delta.filter (fun m => m.tag == t), m.tag = t := by
      intro m hm
      rcases List.mem_append.mp hm with h2 | h2
      · exact ht m (List.mem_of_mem_drop h2)
      · have h3 := List.of_mem_filter h2
        simpa using h3
    rw [for_each_eq _ _ _ _ _ hget ht2]
    simp

/-- Witness for C2: three pending messages, one confirmed, failure on the
second, one same-type and one other-type message published during the
iteration. -/
theorem for_each_requeue_witness :
    ∃ i2, for_each (publishAll (connect [MsgType.jobUpdated])
        [Message.jobUpdated "a" 0, Message.jobUpdated "b" 1, Message.jobUpdated "c" 2])
        MsgType.jobUpdated 1 [Message.jobUpdated "d" 3, Message.queueSize 9]
        = some (DrainResult.mk [Message.jobUpdated "a" 0]
            [Message.jobUpdated "b" 1, Message.jobUpdated "c" 2] false, i2)
      ∧ dictGet i2.queues MsgType.jobUpdated
        = some [Message.jobUpdated "b" 1, Message.jobUpdated "c" 2, Message.jobUpdated "d" 3]
      ∧ ([Message.jobUpdated "b" 1, Message.jobUpdated "c" 2] : List Message) ≠ []
      ∧ ([Message.jobUpdated "b" 1, Message.jobUpdated "c" 2] : List Message).length = 3 - 1
      ∧ (for_each i2 MsgType.jobUpdated 3 []).map (fun p => p.1.confirmed)
        = some [Message.jobUpdated "b" 1, Message.jobUpdated "c" 2, Message.jobUpdated "d" 3] :=
  for_each_requeue
    (publishAll (connect [MsgType.jobUpdated])
      [Message.jobUpdated "a" 0, Message.jobUpdated "b" 1, Message.jobUpdated "c" 2])
    MsgType.jobUpdated
    [Message.jobUpdated "a" 0, Message.jobUpdated "b" 1, Message.jobUpdated "c" 2]
    [Message.jobUpdated "d" 3, Message.queueSize 9] 1 rfl (by decide) (by decide)

/-- C3: against the code, a request for cores, memory and disk all exactly
equal to the configured ceilings with an empty accelerator list does NOT
succeed: check_resource_request reaches the default accelerator hook, whose
body reads the undefined name `requierer`, so the call raises NameError.
The strict-excess half of the claim does hold: each amount strictly above
its ceiling raises the annotated diagnostic naming the resource, the
requested amount and the ceiling, with the backend class name, and with the
configured working directory as source exactly for disk.  This theorem
evaluates the code at those inputs. -/
theorem check_resource_request_bug_eval :
    check_resource_request demoBS atCeilingReq
      = Except.error (PyError.nameError "requierer")
    ∧ check_resource_request demoBS { atCeilingReq with cores := 3 }
      = Except.error (PyError.insufficient (InsufficientSystemResources.mk none "cores"
          (some (ParsedRequirement.float 3)) (some (ParsedRequirement.float 2))
          (some "FakeBatchSystem") none []))
    ∧ check_resource_request demoBS { atCeilingReq with memory := 5 }
      = Except.error (PyError.insufficient (InsufficientSystemResources.mk none "memory"
          (some (ParsedRequirement.int 5)) (some (ParsedRequirement.int 4))
          (some "FakeBatchSystem") none []))
    ∧ check_resource_request demoBS { atCeilingReq with disk := 9 }
      = Except.error (PyError.insufficient (InsufficientSystemResources.mk none "disk"
          (some (ParsedRequirement.int 9)) (some (ParsedRequirement.int 8))
          (some "FakeBatchSystem") (some "/tmp/toil") [])) :=
  ⟨rfl, rfl, rfl, rfl⟩

/-- C4: against the code, the default accelerator hook never raises an
InsufficientSystemResources naming accelerators, and never passes an empty
request either: its body reads the undefined name `requierer` (the
parameter is `requirer`), so both an empty and a non-empty accelerator list
raise NameError, which check_resource_request propagates unannotated.  This
theorem evaluates the code on a within-ceilings descriptor with and without
accelerators. -/
theorem accelerator_hook_bug_eval :
    check_accelerator_request { atCeilingReq with accelerators := ["gpu"] }
      = Except.error (PyError.nameError "requierer")
    ∧ check_accelerator_request atCeilingReq
      = Except.error (PyError.nameError "requierer")
    ∧ check_resource_request demoBS (Requirer.mk none 1 1 1 ["gpu"])
      = Except.error (PyError.nameError "requierer")
    ∧ check_resource_request demoBS (Requirer.mk none 1 1 1 [])
      = Except.error (PyError.nameError "requierer") :=
  ⟨rfl, rfl, rfl, rfl⟩

/-- C5: for_each iterates only over the messages pending at the start of
the call: with a consumer that confirms everything, it yields exactly the
swapped-out queue q, and the queue afterwards holds exactly the messages of
that type published during the iteration, none of which were yielded; with
zero pending messages and no concurrent publishes it yields nothing and
leaves the inbox unchanged. -/
theorem for_each_snapshot (i : Inbox) (t : MsgType) (q delta : List Message)
    (b : Nat) (hq : dictGet i.queues t = some q) (ht : ∀ m ∈ q, m.tag = t)
    (hb : q.length ≤ b) :
    (∃ i2, for_each i t b delta = some (DrainResult.mk q [] false, i2)
        ∧ dictGet i2.queues t = some (delta.filter (fun m => m.tag == t)))
    ∧ (q = [] → for_each i t b [] = some (DrainResult.mk [] [] false, i)) := by
  constructor
  · have h1 := for_each_eq i t b delta q hq ht
    rw [List.take_of_length_le hb, List.drop_eq_nil_of_le hb] at h1
    refine ⟨_, h1, ?_⟩
    simpa using dictGet_dictSet_self
      (publishAll (Inbox.mk (dictSet i.queues t [])) delta).queues t
      ([] ++ delta.filter (fun m => m.tag == t))
  · intro h0
    subst h0
    have h1 := for_each_eq i t b [] [] hq ht
    simp only [publishAll, List.foldl_nil, List.take_nil, List.drop_nil,
      List.filter_nil, List.append_nil] at h1
    rw [dictSet_dictSet, dictSet_id i.queues t [] hq] at h1
    exact h1

/-- Witness for C5 at a concrete inbox with an empty pending queue, so both
halves are exercised, including the unchanged-state case. -/
theorem for_each_snapshot_witness :
    (∃ i2, for_each (connect [MsgType.queueSize]) MsgType.queueSize 4
          [Message.queueSize 5]
        = some (DrainResult.mk [] [] false, i2)
        ∧ dictGet i2.queues MsgType.queueSize = some [Message.queueSize 5])
    ∧ (([] : List Message) = [] →
        for_each (connect [MsgType.queueSize]) MsgType.queueSize 4 []
          = some (DrainResult.mk [] [] false, connect [MsgType.queueSize])) :=
  for_each_snapshot (connect [MsgType.queueSize]) MsgType.queueSize [] [Message.queueSize 5]
    4 rfl (by decide) (by decide)

/-- C6: setEnv with no explicit value copies the value of the name from the
ambient environment at call time into the backend environment map, raises a
RuntimeError naming the variable when the name is absent from the ambient
environment, and with an explicit value stores exactly that value under the
name; the stored binding is retrievable. -/
theorem setEnv_semantics (environ : List (String × String))
    (bs : BatchSystemSupport) (name : String) :
    (lookupEnv environ name = none →
      setEnv environ bs name none
        = Except.error (name ++ " does not exist in current environment"))
    ∧ (∀ v, lookupEnv environ name = some v →
      setEnv environ bs name none
        = Except.ok { bs with environment := envSet bs.environment name v })
    ∧ (∀ v, setEnv environ bs name (some v)
        = Except.ok { bs with environment := envSet bs.environment name v })
    ∧ (∀ v env2, lookupEnv (envSet env2 name v) name = some v) := by
  refine ⟨?_, ?_, ?_, ?_⟩
  · intro h
    simp [setEnv, h]
  · intro v h
    simp [setEnv, h]
  · intro v
    rfl
  · intro v env2
    induction env2 with
    | nil => simp [envSet, lookupEnv]
    | cons p rest ih =>
      obtain ⟨k, w⟩ := p
      by_cases hk : k = name
      · simp [envSet, lookupEnv, hk]
      · simp [envSet, lookupEnv, hk, ih]

/-- Witness for C6: an ambient environment without X makes value-less
setEnv fail; with X bound to 2 it copies that value. -/
theorem setEnv_semantics_witness :
    setEnv [] demoBS "X" none
      = Except.error ("X" ++ " does not exist in current environment")
    ∧ setEnv [("X", "2")] demoBS "X" none
      = Except.ok { demoBS with environment := envSet demoBS.environment "X" "2" } :=
  ⟨(setEnv_semantics [] demoBS "X").1 rfl,
    (setEnv_semantics [("X", "2")] demoBS "X").2.1 "2" rfl⟩

/-- C7: publishing one message changes no queue and no count of any case
type other than the message type; the queue of the message type itself, if
subscribed, grows by exactly that one message (and stays absent
otherwise). -/
theorem publish_frame (i : Inbox) (m : Message) (u : MsgType)
    (hu : u ≠ m.tag) :
    dictGet (deliver i m).queues u = dictGet i.queues u
    ∧ count (deliver i m) u = count i u
    ∧ dictGet (deliver i m).queues m.tag
        = (dictGet i.queues m.tag).map (fun q => q ++ [m]) := by
  have h1 := deliver_get_ne i m u hu
  refine ⟨h1, by simp [count, h1], ?_⟩
  cases hq : dictGet i.queues m.tag with
  | none => simp [deliver, hq]
  | some q => simp [deliver_get_self i m q hq, hq]

/-- Witness for C7 at a concrete two-type inbox. -/
theorem publish_frame_witness :
    dictGet (deliver (connect [MsgType.jobIssued, MsgType.queueSize])
        (Message.queueSize 7)).queues MsgType.jobIssued
      = dictGet (connect [MsgType.jobIssued, MsgType.queueSize]).queues MsgType.jobIssued
    ∧ count (deliver (connect [MsgType.jobIssued, MsgType.queueSize])
        (Message.queueSize 7)) MsgType.jobIssued
      = count (connect [MsgType.jobIssued, MsgType.queueSize]) MsgType.jobIssued
    ∧ dictGet (deliver (connect [MsgType.jobIssued, MsgType.queueSize])
        (Message.queueSize 7)).queues (Message.queueSize 7).tag
      = (dictGet (connect [MsgType.jobIssued, MsgType.queueSize]).queues
          (Message.queueSize 7).tag).map (fun q => q ++ [Message.queueSize 7]) :=
  publish_frame (connect [MsgType.jobIssued, MsgType.queueSize])
    (Message.queueSize 7) MsgType.jobIssued (by decide)

/-- C8: publishing on an outbox never bound to a bus always fails with the
RuntimeError text of the source and publishes nothing (the error result
carries no bus state), and count and for_each on a type the inbox never
subscribed to fail with a KeyError, modelled as `none`; neither misuse is
silently swallowed. -/
theorem protocol_errors (m : Message) (i : Inbox) (t : MsgType) (b : Nat)
    (delta : List Message) (h : dictGet i.queues t = none) :
    MessageOutbox.publish (MessageOutbox.mk none) m
      = Except.error "Cannot send message when not connected to a bus"
    ∧ count i t = none
    ∧ for_each i t b delta = none := by
  refine ⟨rfl, ?_, ?_⟩
  · simp [count, h]
  · simp [for_each, h]

/-- Witness for C8 at a concrete message and an inbox subscribed only to
another type. -/
theorem protocol_errors_witness :
    MessageOutbox.publish (MessageOutbox.mk none) (Message.queueSize 1)
      = Except.error "Cannot send message when not connected to a bus"
    ∧ count (connect [MsgType.jobIssued]) MsgType.queueSize = none
    ∧ for_each (connect [MsgType.jobIssued]) MsgType.queueSize 0 [] = none :=
  protocol_errors (Message.queueSize 1) (connect [MsgType.jobIssued])
    MsgType.queueSize 0 [] rfl

/-- C9: against the code, rendering an InsufficientSystemResources never
produces the documented user-facing message: line 543 of
src/src/toil/batchSystems/abstractBatchSystem.py evaluates the comparison
with the undefined global name `disk` (the string on that line also lacks
its f prefix, and later lines reference the undefined locals `job_name`,
`available`, `resource`, `details`), so `str()` raises NameError for every
diagnostic.  This theorem evaluates the code at a cores rejection and at a
fully populated disk rejection. -/
theorem insufficient_str_bug_eval :
    insufficient_str (InsufficientSystemResources.mk none "cores"
        (some (ParsedRequirement.float 2)) (some (ParsedRequirement.float 1))
        (some "FakeBatchSystem") none [])
      = Except.error (PyError.nameError "disk")
    ∧ insufficient_str (InsufficientSystemResources.mk (some "jobA") "disk"
        (some (ParsedRequirement.int 9)) (some (ParsedRequirement.int 8))
        (some "FakeBatchSystem") (some "/tmp/toil") ["extra detail"])
      = Except.error (PyError.nameError "disk") :=
  ⟨rfl, rfl⟩

/-- C10: every inbox reachable through connect, publish and for_each keeps
each buffered message in the queue keyed by its own runtime type, so the
isinstance assertion inside for_each never fires on such an inbox, and
empty returns true exactly when every subscribed queue has length zero. -/
theorem inbox_invariant (i : Inbox) (hi : Reach i) :
    inboxWF i
    ∧ (∀ t b delta r i2, for_each i t b delta = some (r, i2) →
        r.assertFailed = false)
    ∧ (empty i = true ↔ ∀ p ∈ i.queues, p.2.length = 0) := by
  have hwf : inboxWF i := by
    induction hi with
    | connected ws => exact inboxWF_connect ws
    | published j m hr ih => exact inboxWF_deliver j m ih
    | drained j t b delta r i2 hr hfe ih =>
      exact (inboxWF_for_each j t b delta r i2 ih hfe).1
  refine ⟨hwf, ?_, ?_⟩
  · intro t b delta r i2 h
    exact (inboxWF_for_each i t b delta r i2 hwf h).2
  · simp [empty, List.all_eq_true]

/-- Witness for C10 on a concrete reachable inbox (connect then one
publish). -/
theorem inbox_invariant_witness :
    inboxWF (deliver (connect [MsgType.queueSize]) (Message.queueSize 3)) :=
  (inbox_invariant (deliver (connect [MsgType.queueSize]) (Message.queueSize 3))
    (Reach.published (connect [MsgType.queueSize]) (Message.queueSize 3)
      (Reach.connected [MsgType.queueSize]))).1

end ToilSpec
